import Mathlib

/-!
# Verification of the query-matching engine of `mock-db-connector`

Shallow embedding of `src/lib/QueryBuilder.js`: the `_matchesOperator`,
`_matchesQuery`, `match` and `execute` methods of class `QueryBuilder`,
over a model of JavaScript values.

Modelling choices:
* JS values are a closed sum `Value` over undefined, null, booleans,
  numbers, strings, arrays and plain objects.  Numbers are modelled as
  the finite integers `Int` together with the distinguished number
  values `nan` (NaN) and `inf` (the two infinities); fractional number
  *values* in documents are not modelled (no claim mentions one), but
  fractional *string* coercion is exact (see below).  Arrays and
  objects carry their elements as the mutually defined `ValueList` and
  `FieldList`.
* JS strict equality `===` on arrays and objects is *reference*
  equality, so the `arr` and `obj` constructors carry an allocation
  identity (`Nat`); two separately constructed arrays are distinct
  references even when structurally equal, and `jsStrictEq` compares
  the identities.  `NaN === NaN` is false; `Array.prototype.includes`
  instead uses SameValueZero, under which NaN matches NaN
  (`sameValueZero`).
* The relational operators `<` `<=` `>` `>=` follow ECMAScript's
  Abstract Relational Comparison: both operands are converted to
  primitives with number hint (arrays stringify by joining, plain
  objects to "[object Object]"); if both primitives are strings the
  comparison is lexicographic by UTF-16 code units (`utf16Lt`),
  otherwise both are converted to numbers and compared, and any NaN
  makes the comparison (and its negation for `<=`/`>=`) false.
  String-to-number conversion (`strToNumber`) implements the full
  ECMAScript `StringNumericLiteral` grammar: JS whitespace trimming,
  the empty string as 0, signed decimal literals with fraction and
  exponent, `Infinity`, and unsigned `0x`/`0o`/`0b` literals; every
  other string is NaN.  Finite values are kept exactly as scaled
  integers `m · 10^e` (every string numeric literal denotes such a
  value); IEEE-754 rounding and overflow of finite literals to
  Infinity are not modelled, which never changes whether a string is
  NaN, the only classification the theorems below quantify over.
  Lean strings are well-formed Unicode, so JS strings with lone
  surrogates are outside the model.
* `new RegExp(value)` can throw on a malformed pattern, and
  `regex.test` is host functionality: the matcher is parameterised by
  an abstract `compile : Value → Except Unit (String → Bool)` whose
  failure models the pattern-compilation exception.  All matcher
  functions return in `Except Unit`, `.error ()` modelling a raised
  exception.
* Documents and filters are association lists `List (String × Value)`
  in insertion order, matching `for ... in` enumeration order of the
  source (JS objects cannot carry duplicate keys; claims about
  arbitrary filters quantify over lists, which is conservative).
-/

mutual

/-- A JavaScript value as used by the documents and filters of the
repository.  `arr` and `obj` carry an allocation identity so that
strict equality can be reference equality. -/
inductive Value where
  | missing : Value
  | null : Value
  | bool : Bool → Value
  | num : Int → Value
  | nan : Value
  | inf : Bool → Value
  | str : String → Value
  | arr : Nat → ValueList → Value
  | obj : Nat → FieldList → Value
deriving DecidableEq, Repr

/-- The elements of a JS array. -/
inductive ValueList where
  | nil : ValueList
  | cons : Value → ValueList → ValueList
deriving DecidableEq, Repr

/-- The own enumerable properties of a JS object, in insertion order
(`for ... in` enumeration order). -/
inductive FieldList where
  | nil : FieldList
  | cons : String → Value → FieldList → FieldList
deriving DecidableEq, Repr

end

namespace Value

/-- Whether the value is an array (`Array.isArray`). -/
def isArr : Value → Bool
  | .arr _ _ => true
  | _ => false

/-- Whether the value is a non-array truthy object
(`v && typeof v === 'object' && !Array.isArray(v)`): the test on
line 51 of QueryBuilder.js that selects the operator-object branch. -/
def isOperatorObject : Value → Bool
  | .obj _ _ => true
  | _ => false

/-- Whether the value is a string (`typeof v === 'string'`). -/
def isStr : Value → Bool
  | .str _ => true
  | _ => false

end Value

/-- JS strict equality `===`: equal tags and equal payloads for
primitives, reference (allocation identity) equality for arrays and
objects; `undefined === undefined` and `null === null` hold, values of
different types are never strictly equal, and `NaN === NaN` is false
(the `nan, nan` pair falls to the catch-all). -/
def jsStrictEq : Value → Value → Bool
  | .missing, .missing => true
  | .null, .null => true
  | .bool a, .bool b => a == b
  | .num a, .num b => a == b
  | .inf a, .inf b => a == b
  | .str a, .str b => a == b
  | .arr i _, .arr j _ => i == j
  | .obj i _, .obj j _ => i == j
  | _, _ => false

/-- The SameValueZero comparison used by `Array.prototype.includes`:
identical to strict equality except that NaN matches NaN. -/
def sameValueZero (a b : Value) : Bool :=
  match a, b with
  | .nan, .nan => true
  | x, y => jsStrictEq x y

/-- A JS number as produced by `ToNumber`: NaN, an infinity (the `Bool`
is the sign, `true` for `+∞`), or a finite value kept exactly as the
scaled integer `mantissa · 10^ex`. -/
inductive JSNum where
  | nan : JSNum
  | inf : Bool → JSNum
  | fin : Int → Int → JSNum
deriving DecidableEq, Repr

/-- The ECMAScript whitespace and line-terminator characters trimmed by
`ToNumber` on strings (WhiteSpace ∪ LineTerminator: tab, LF, VT, FF,
CR, space, NBSP, ZWNBSP, the Unicode space separators, and the
line/paragraph separators). -/
def isJsWhitespace (c : Char) : Bool :=
  decide (c.toNat ∈ [0x9, 0xA, 0xB, 0xC, 0xD, 0x20, 0xA0, 0x1680,
    0x2000, 0x2001, 0x2002, 0x2003, 0x2004, 0x2005, 0x2006, 0x2007,
    0x2008, 0x2009, 0x200A, 0x2028, 0x2029, 0x202F, 0x205F, 0x3000,
    0xFEFF])

/-- The value of a list of decimal digit characters. -/
def digitsToNat (ds : List Char) : Nat :=
  ds.foldl (fun acc c => acc * 10 + (c.toNat - 48)) 0

/-- The value of a decimal digit character. -/
def decDigitVal (c : Char) : Option Nat :=
  if c.isDigit then some (c.toNat - 48) else none

/-- The value of a hexadecimal digit character. -/
def hexDigitVal (c : Char) : Option Nat :=
  if c.isDigit then some (c.toNat - 48)
  else if 'a' ≤ c ∧ c ≤ 'f' then some (c.toNat - 87)
  else if 'A' ≤ c ∧ c ≤ 'F' then some (c.toNat - 55)
  else none

/-- The value of an octal digit character. -/
def octDigitVal (c : Char) : Option Nat :=
  if '0' ≤ c ∧ c ≤ '7' then some (c.toNat - 48) else none

/-- The value of a binary digit character. -/
def binDigitVal (c : Char) : Option Nat :=
  if c = '0' ∨ c = '1' then some (c.toNat - 48) else none

/-- A nonempty all-valid digit string in the given base, or `none`. -/
def parseRadixDigits (dv : Char → Option Nat) (base : Nat)
    (cs : List Char) : Option Nat :=
  match cs with
  | [] => none
  | _ =>
    cs.foldl (fun acc c =>
      match acc, dv c with
      | some a, some d => some (a * base + d)
      | _, _ => none) (some 0)

/-- `StrUnsignedDecimalLiteral` without the `Infinity` production:
`DecimalDigits . DecimalDigits? ExponentPart?`,
`. DecimalDigits ExponentPart?` or `DecimalDigits ExponentPart?`,
with `ExponentPart ::= (e|E) SignedInteger`; anything else is `none`.
The result is the pair of mantissa and power-of-ten exponent of the
literal's exact value. -/
def parseUnsignedDecimal (cs : List Char) : Option (Int × Int) :=
  let intDigits := cs.takeWhile Char.isDigit
  let rest := cs.dropWhile Char.isDigit
  let fracDigits := match rest with
                    | '.' :: r => r.takeWhile Char.isDigit
                    | _ => []
  let rest2 := match rest with
               | '.' :: r => r.dropWhile Char.isDigit
               | _ => rest
  if intDigits.isEmpty ∧ fracDigits.isEmpty then none
  else
    let mantissa : Int := digitsToNat (intDigits ++ fracDigits)
    let fracLen : Int := fracDigits.length
    match rest2 with
    | [] => some (mantissa, -fracLen)
    | c :: r =>
      if c = 'e' ∨ c = 'E' then
        match r with
        | '+' :: ds => (parseRadixDigits decDigitVal 10 ds).map
            (fun ex => (mantissa, (ex : Int) - fracLen))
        | '-' :: ds => (parseRadixDigits decDigitVal 10 ds).map
            (fun ex => (mantissa, -(ex : Int) - fracLen))
        | ds => (parseRadixDigits decDigitVal 10 ds).map
            (fun ex => (mantissa, (ex : Int) - fracLen))
      else none

/-- `StrUnsignedDecimalLiteral` after an optional sign: the literal
`Infinity` or an unsigned decimal literal, with the sign applied. -/
def decUnsignedLiteral (r : List Char) (pos : Bool) : JSNum :=
  if r = ['I', 'n', 'f', 'i', 'n', 'i', 't', 'y'] then .inf pos
  else
    match parseUnsignedDecimal r with
    | some (m, e) => .fin (if pos then m else -m) e
    | none => .nan

/-- `StrDecimalLiteral`: an optional `+`/`-` sign followed by an
unsigned decimal literal or `Infinity`. -/
def decSignedLiteral (t : List Char) : JSNum :=
  match t with
  | '+' :: r => decUnsignedLiteral r true
  | '-' :: r => decUnsignedLiteral r false
  | r => decUnsignedLiteral r true

/-- `Number(s)` for a string, per the ECMAScript
`StringNumericLiteral` grammar: trim JS whitespace; the empty result is
0; an (unsigned) `0x`/`0o`/`0b` literal is parsed in its base; anything
else is parsed as a signed decimal literal or `Infinity`, and `NaN`
otherwise.  Finite values are exact scaled integers (IEEE rounding and
overflow are not modelled; neither changes NaN-ness). -/
def strToNumber (s : String) : JSNum :=
  let t := ((s.toList.dropWhile isJsWhitespace).reverse.dropWhile
    isJsWhitespace).reverse
  match t with
  | [] => .fin 0 0
  | '0' :: c :: rest =>
      if c = 'x' ∨ c = 'X' then
        match parseRadixDigits hexDigitVal 16 rest with
        | some n => .fin (n : Int) 0
        | none => .nan
      else if c = 'o' ∨ c = 'O' then
        match parseRadixDigits octDigitVal 8 rest with
        | some n => .fin (n : Int) 0
        | none => .nan
      else if c = 'b' ∨ c = 'B' then
        match parseRadixDigits binDigitVal 2 rest with
        | some n => .fin (n : Int) 0
        | none => .nan
      else decSignedLiteral t
  | _ => decSignedLiteral t

mutual

/-- `String(v)` for a JS value: `Array.prototype.toString` joins the
elements' conversions with `,`, where `undefined` and `null` elements
become the empty string; plain objects print `[object Object]`. -/
def jsToString : Value → String
  | .missing => "undefined"
  | .null => "null"
  | .bool true => "true"
  | .bool false => "false"
  | .num n => toString n
  | .nan => "NaN"
  | .inf true => "Infinity"
  | .inf false => "-Infinity"
  | .str s => s
  | .arr _ xs => String.intercalate "," (jsElemStrings xs)
  | .obj _ _ => "[object Object]"

/-- Element-wise conversion used by `Array.prototype.join`:
`undefined` and `null` elements become empty strings. -/
def jsElemStrings : ValueList → List String
  | .nil => []
  | .cons .missing xs => "" :: jsElemStrings xs
  | .cons .null xs => "" :: jsElemStrings xs
  | .cons x xs => jsToString x :: jsElemStrings xs

end

/-- `ToPrimitive(v, number)`: primitives are returned unchanged;
arrays and plain objects have no `valueOf` returning a primitive, so
they convert through `toString`. -/
def toPrimitive : Value → Value
  | .arr i xs => .str (jsToString (.arr i xs))
  | .obj i fs => .str (jsToString (.obj i fs))
  | v => v

/-- `ToNumber` on a primitive value. -/
def primToNumber : Value → JSNum
  | .missing => .nan
  | .null => .fin 0 0
  | .bool b => .fin (if b then 1 else 0) 0
  | .num n => .fin n 0
  | .nan => .nan
  | .inf p => .inf p
  | .str s => strToNumber s
  | .arr _ _ => .nan
  | .obj _ _ => .nan

/-- The UTF-16 code units of a string (characters beyond the Basic
Multilingual Plane split into their surrogate pair). -/
def utf16Units (s : String) : List Nat :=
  s.toList.foldr (fun c acc =>
    let n := c.toNat
    if n < 0x10000 then n :: acc
    else (0xD800 + (n - 0x10000) / 0x400) ::
      (0xDC00 + (n - 0x10000) % 0x400) :: acc) []

/-- Strict lexicographic order on lists of naturals: a proper prefix is
smaller, otherwise the first differing entry decides. -/
def listLtNat : List Nat → List Nat → Bool
  | [], [] => false
  | [], _ :: _ => true
  | _ :: _, [] => false
  | a :: as, b :: bs =>
      if a < b then true else if b < a then false else listLtNat as bs

/-- The ECMAScript string order: lexicographic by UTF-16 code units. -/
def utf16Lt (a b : String) : Bool := listLtNat (utf16Units a) (utf16Units b)

/-- The `x < y` comparison of two JS numbers: `none` (undefined) when a
NaN is involved, otherwise the sign-aware numeric order; two finite
values `a·10^ea` and `b·10^eb` are compared by scaling both to the
smaller exponent. -/
def jsNumLt : JSNum → JSNum → Option Bool
  | .nan, _ => none
  | _, .nan => none
  | .inf p, .inf q => some (!p && q)
  | .inf p, .fin _ _ => some (!p)
  | .fin _ _, .inf q => some q
  | .fin a ea, .fin b eb =>
      some (decide (a * 10 ^ (ea - eb).toNat < b * 10 ^ (eb - ea).toNat))

/-- ECMAScript Abstract Relational Comparison `x < y`: convert both
operands to primitives with number hint; if both are strings compare
lexicographically by UTF-16 code units, otherwise convert both to
numbers and compare, `none` modelling the `undefined` result when a
NaN is involved. -/
def jsLtRaw (x y : Value) : Option Bool :=
  match toPrimitive x, toPrimitive y with
  | .str a, .str b => some (utf16Lt a b)
  | px, py => jsNumLt (primToNumber px) (primToNumber py)

/-- JS `x < y` (an `undefined` comparison yields `false`). -/
def jsLt (x y : Value) : Bool := (jsLtRaw x y).getD false

/-- JS `x > y`, defined as `y < x`. -/
def jsGt (x y : Value) : Bool := (jsLtRaw y x).getD false

/-- JS `x <= y`: `false` if `y < x` is `true` or `undefined`. -/
def jsLe (x y : Value) : Bool :=
  match jsLtRaw y x with
  | some b => !b
  | none => false

/-- JS `x >= y`: `false` if `x < y` is `true` or `undefined`. -/
def jsGe (x y : Value) : Bool :=
  match jsLtRaw x y with
  | some b => !b
  | none => false

/-- `Array.prototype.includes`: whether some element of the array is
SameValueZero-equal to the given value (strict equality, except that
NaN matches NaN). -/
def arrayIncludes (xs : ValueList) (v : Value) : Bool :=
  match xs with
  | .nil => false
  | .cons x rest => sameValueZero x v || arrayIncludes rest v

/-- A document: a JS object's own enumerable properties in insertion
order. -/
abbrev Document := List (String × Value)

/-- Property access `doc[key]`: the value at the key, `undefined` when
the field is absent. -/
def getField (doc : Document) (key : String) : Value :=
  match List.find? (fun p => p.1 == key) doc with
  | some p => p.2
  | none => .missing

/-- The abstract host regular-expression facility standing for
`new RegExp(value)` followed by `.test`: compilation either fails
(a malformed pattern throws) or yields a test predicate on strings. -/
def RegexCompiler := Value → Except Unit (String → Bool)

/-- `QueryBuilder._matchesOperator(fieldValue, operator, value)`
(QueryBuilder.js lines 76–110): the `switch` over the operator name.
`$eq`/`$ne` use strict (in)equality, the four ordering operators the
native relational operators, `$in` requires an array operand whose
`includes` finds the field value (SameValueZero), `$regex` first
returns `false` for non-string field values and only then compiles the
pattern (so only that branch can raise), and any unknown operator
returns `false`. -/
def matchesOperator (compile : RegexCompiler) (fieldValue : Value)
    (operator : String) (value : Value) : Except Unit Bool :=
  match operator with
  | "$eq" => pure (jsStrictEq fieldValue value)
  | "$ne" => pure (!jsStrictEq fieldValue value)
  | "$gt" => pure (jsGt fieldValue value)
  | "$gte" => pure (jsGe fieldValue value)
  | "$lt" => pure (jsLt fieldValue value)
  | "$lte" => pure (jsLe fieldValue value)
  | "$in" =>
    pure (match value with
          | .arr _ xs => arrayIncludes xs fieldValue
          | _ => false)
  | "$regex" =>
    match fieldValue with
    | .str s =>
      match compile value with
      | .error e => .error e
      | .ok test => .ok (test s)
    | _ => pure false
  | _ => pure false

/-- The inner loop of `_matchesQuery` (lines 53–57): every operator in
an operator object must hold; the first `false` short-circuits, and a
thrown pattern-compilation error propagates. -/
def evalOperators (compile : RegexCompiler) (docValue : Value) :
    FieldList → Except Unit Bool
  | .nil => pure true
  | .cons op operand rest =>
      match matchesOperator compile docValue op operand with
      | .error e => .error e
      | .ok true => evalOperators compile docValue rest
      | .ok false => pure false

/-- The per-field dispatch of `_matchesQuery` (lines 51–62): a
non-array truthy object value is an operator object whose operators are
all required, any other value (including arrays and null) is an
implicit `$eq`. -/
def evalFieldCondition (compile : RegexCompiler) (docValue : Value)
    (queryValue : Value) : Except Unit Bool :=
  match queryValue with
  | .obj _ ops => evalOperators compile docValue ops
  | qv => matchesOperator compile docValue "$eq" qv

/-- `QueryBuilder._matchesQuery(doc, query)` (lines 46–66): each filter
key is checked in turn against the document's value at that key; the
first failing field short-circuits. -/
def matchesQuery (compile : RegexCompiler) (doc : Document) :
    List (String × Value) → Except Unit Bool
  | [] => pure true
  | (key, queryValue) :: rest =>
      match evalFieldCondition compile (getField doc key) queryValue with
      | .error e => .error e
      | .ok true => matchesQuery compile doc rest
      | .ok false => pure false

/-- `Array.prototype.filter` with a possibly-throwing predicate,
evaluated left to right (a raised exception aborts the traversal). -/
def filterE (p : Document → Except Unit Bool) :
    List Document → Except Unit (List Document)
  | [] => pure []
  | d :: ds =>
      match p d with
      | .error e => .error e
      | .ok b =>
        match filterE p ds with
        | .error e => .error e
        | .ok rest => .ok (if b then d :: rest else rest)

/-- `QueryBuilder.match(query)` followed by `execute()` (lines 21–37):
an empty query leaves the document list untouched, otherwise the list
is filtered by `_matchesQuery`. -/
def matchAll (compile : RegexCompiler) (docs : List Document)
    (query : List (String × Value)) : Except Unit (List Document) :=
  if query.isEmpty then pure docs
  else filterE (fun d => matchesQuery compile d query) docs

/-- A regex compiler for concrete test points whose claims do not
involve `$regex`: it rejects every pattern. -/
def noRegex : RegexCompiler := fun _ => .error ()

/-- The elements of a JS array as a Lean list (for stating membership
properties). -/
def ValueList.toList : ValueList → List Value
  | .nil => []
  | .cons x xs => x :: ValueList.toList xs

/-- Whether an `Except Unit Bool` evaluation completed and returned
`true`. -/
def okTrue : Except Unit Bool → Bool
  | .ok true => true
  | _ => false

/-- Whether an operator object mentions no `$regex` operator. -/
def opsRegexFree : FieldList → Bool
  | .nil => true
  | .cons op _ rest => (op != "$regex") && opsRegexFree rest

/-- Whether a query mentions no `$regex` operator anywhere. -/
def queryRegexFree (query : List (String × Value)) : Bool :=
  query.all (fun p => match p.2 with
                      | .obj _ ops => opsRegexFree ops
                      | _ => true)

theorem arrayIncludes_iff (xs : ValueList) (v : Value) :
    arrayIncludes xs v = true ↔ ∃ x ∈ xs.toList, sameValueZero x v = true := by
  cases xs with
  | nil => simp [arrayIncludes, ValueList.toList]
  | cons x rest =>
      have ih := arrayIncludes_iff rest v
      simp only [arrayIncludes, ValueList.toList, Bool.or_eq_true, ih,
        List.mem_cons]
      constructor
      · rintro (h | ⟨y, hy, hEq⟩)
        · exact ⟨x, Or.inl rfl, h⟩
        · exact ⟨y, Or.inr hy, hEq⟩
      · rintro ⟨y, (rfl | hy), hEq⟩
        · exact Or.inl hEq
        · exact Or.inr ⟨y, hy, hEq⟩

theorem filterE_ok {p : Document → Except Unit Bool} :
    ∀ {l : List Document} {res : List Document}, filterE p l = .ok res →
      res = l.filter (fun d => okTrue (p d)) := by
  intro l
  induction l with
  | nil => intro res h; cases h; rfl
  | cons d ds ih =>
      intro res h
      cases hpd : p d with
      | error e => simp [filterE, hpd] at h
      | ok b =>
          cases hrest : filterE p ds with
          | error e => simp [filterE, hpd, hrest] at h
          | ok rest =>
              have hres : res = if b then d :: rest else rest := by
                simp [filterE, hpd, hrest] at h
                exact h.symm
              subst hres
              cases b with
              | true => simp [List.filter, okTrue, hpd, ih hrest]
              | false => simp [List.filter, okTrue, hpd, ih hrest]

theorem filterE_elems_ok {p : Document → Except Unit Bool} :
    ∀ {l : List Document} {res : List Document}, filterE p l = .ok res →
      ∀ d ∈ l, ∃ b, p d = .ok b := by
  intro l
  induction l with
  | nil => intro res _ d hd; cases hd
  | cons e ds ih =>
      intro res h d hd
      cases hpd : p e with
      | error err => simp [filterE, hpd] at h
      | ok b =>
          cases hrest : filterE p ds with
          | error err => simp [filterE, hpd, hrest] at h
          | ok rest =>
              rcases List.mem_cons.mp hd with rfl | hd'
              · exact ⟨b, hpd⟩
              · exact ih hrest d hd'

theorem filterE_ok_of_elems {p : Document → Except Unit Bool} :
    ∀ {l : List Document}, (∀ d ∈ l, ∃ b, p d = .ok b) →
      ∃ res, filterE p l = .ok res := by
  intro l
  induction l with
  | nil => intro _; exact ⟨[], rfl⟩
  | cons d ds ih =>
      intro h
      obtain ⟨b, hb⟩ := h d (List.mem_cons_self d ds)
      obtain ⟨rest, hrest⟩ := ih (fun e he => h e (List.mem_cons_of_mem d he))
      exact ⟨if b then d :: rest else rest, by simp [filterE, hb, hrest]⟩

theorem filterE_const_true {p : Document → Except Unit Bool}
    (h : ∀ d, p d = .ok true) : ∀ l, filterE p l = .ok l := by
  intro l
  induction l with
  | nil => rfl
  | cons d ds ih => simp [filterE, h d, ih]

theorem filterE_const_false {p : Document → Except Unit Bool}
    (h : ∀ d, p d = .ok false) : ∀ l, filterE p l = .ok [] := by
  intro l
  induction l with
  | nil => rfl
  | cons d ds ih => simp [filterE, h d, ih]

theorem matchesQuery_singleton (compile : RegexCompiler) (doc : Document)
    (key : String) (qv : Value) :
    matchesQuery compile doc [(key, qv)] =
      evalFieldCondition compile (getField doc key) qv := by
  cases h : evalFieldCondition compile (getField doc key) qv with
  | error e => cases e; simp [matchesQuery, h]
  | ok b => cases b <;> simp [matchesQuery, h, pure, Except.pure]

theorem matchesQuery_pair (compile : RegexCompiler) (doc : Document)
    (a b : String) (x y : Value) (u v : Bool)
    (hA : matchesQuery compile doc [(a, x)] = .ok u)
    (hB : matchesQuery compile doc [(b, y)] = .ok v) :
    matchesQuery compile doc [(a, x), (b, y)] = .ok (u && v) := by
  rw [matchesQuery_singleton] at hA hB
  cases u with
  | true =>
      cases v <;> simp [matchesQuery, hA, hB, pure, Except.pure]
  | false => simp [matchesQuery, hA, pure, Except.pure]

theorem matchAll_cons (compile : RegexCompiler) (docs : List Document)
    (key : String) (qv : Value) (rest : List (String × Value)) :
    matchAll compile docs ((key, qv) :: rest) =
      filterE (fun d => matchesQuery compile d ((key, qv) :: rest)) docs := rfl

theorem matchesOperator_error_iff (compile : RegexCompiler) (fv : Value)
    (op : String) (v : Value) :
    matchesOperator compile fv op v = .error () ↔
      op = "$regex" ∧ fv.isStr = true ∧ compile v = .error () := by
  unfold matchesOperator
  split
  all_goals try (simp_all [pure, Except.pure, Value.isStr])
  cases fv <;> simp_all [pure, Except.pure, Value.isStr]
  cases hc : compile v with
  | error e => cases e; simp [hc]
  | ok t => simp [hc]

theorem except_ok_or_error (e : Except Unit Bool) :
    e = .error () ∨ ∃ b, e = .ok b := by
  cases e with
  | error u => cases u; exact Or.inl rfl
  | ok b => exact Or.inr ⟨b, rfl⟩

theorem matchesOperator_ok_of_ne_regex (compile : RegexCompiler)
    (fv : Value) (op : String) (v : Value) (h : op ≠ "$regex") :
    ∃ b, matchesOperator compile fv op v = .ok b := by
  rcases except_ok_or_error (matchesOperator compile fv op v) with he | hok
  · exact absurd ((matchesOperator_error_iff compile fv op v).mp he).1 h
  · exact hok

theorem matchesOperator_ok_of_compile_ok (compile : RegexCompiler)
    (fv : Value) (op : String) (v : Value) (h : compile v ≠ .error ()) :
    ∃ b, matchesOperator compile fv op v = .ok b := by
  rcases except_ok_or_error (matchesOperator compile fv op v) with he | hok
  · exact absurd ((matchesOperator_error_iff compile fv op v).mp he).2.2 h
  · exact hok

theorem evalOperators_ok_of_regexFree (compile : RegexCompiler)
    (dv : Value) (ops : FieldList) (h : opsRegexFree ops = true) :
    ∃ b, evalOperators compile dv ops = .ok b := by
  cases ops with
  | nil => exact ⟨true, rfl⟩
  | cons op operand rest =>
      simp only [opsRegexFree, Bool.and_eq_true, bne_iff_ne, ne_eq] at h
      obtain ⟨b, hb⟩ :=
        matchesOperator_ok_of_ne_regex compile dv op operand h.1
      cases b with
      | true =>
          obtain ⟨c, hc⟩ := evalOperators_ok_of_regexFree compile dv rest h.2
          exact ⟨c, by simp [evalOperators, hb, hc]⟩
      | false => exact ⟨false, by simp [evalOperators, hb, pure, Except.pure]⟩

theorem evalOperators_ok_of_compile_ok (compile : RegexCompiler)
    (dv : Value) (ops : FieldList) (h : ∀ w, compile w ≠ .error ()) :
    ∃ b, evalOperators compile dv ops = .ok b := by
  cases ops with
  | nil => exact ⟨true, rfl⟩
  | cons op operand rest =>
      obtain ⟨b, hb⟩ :=
        matchesOperator_ok_of_compile_ok compile dv op operand (h operand)
      cases b with
      | true =>
          obtain ⟨c, hc⟩ := evalOperators_ok_of_compile_ok compile dv rest h
          exact ⟨c, by simp [evalOperators, hb, hc]⟩
      | false => exact ⟨false, by simp [evalOperators, hb, pure, Except.pure]⟩

theorem evalFieldCondition_ok_of_regexFree (compile : RegexCompiler)
    (dv : Value) (qv : Value)
    (h : (match qv with
          | .obj _ ops => opsRegexFree ops
          | _ => true) = true) :
    ∃ b, evalFieldCondition compile dv qv = .ok b := by
  cases qv with
  | obj i ops => exact evalOperators_ok_of_regexFree compile dv ops h
  | missing => exact matchesOperator_ok_of_ne_regex compile dv "$eq" _ (by decide)
  | null => exact matchesOperator_ok_of_ne_regex compile dv "$eq" _ (by decide)
  | bool b => exact matchesOperator_ok_of_ne_regex compile dv "$eq" _ (by decide)
  | num n => exact matchesOperator_ok_of_ne_regex compile dv "$eq" _ (by decide)
  | nan => exact matchesOperator_ok_of_ne_regex compile dv "$eq" _ (by decide)
  | inf p => exact matchesOperator_ok_of_ne_regex compile dv "$eq" _ (by decide)
  | str s => exact matchesOperator_ok_of_ne_regex compile dv "$eq" _ (by decide)
  | arr i xs => exact matchesOperator_ok_of_ne_regex compile dv "$eq" _ (by decide)

theorem evalFieldCondition_ok_of_compile_ok (compile : RegexCompiler)
    (dv : Value) (qv : Value) (h : ∀ w, compile w ≠ .error ()) :
    ∃ b, evalFieldCondition compile dv qv = .ok b := by
  cases qv with
  | obj i ops => exact evalOperators_ok_of_compile_ok compile dv ops h
  | missing => exact matchesOperator_ok_of_compile_ok compile dv "$eq" _ (h _)
  | null => exact matchesOperator_ok_of_compile_ok compile dv "$eq" _ (h _)
  | bool b => exact matchesOperator_ok_of_compile_ok compile dv "$eq" _ (h _)
  | num n => exact matchesOperator_ok_of_compile_ok compile dv "$eq" _ (h _)
  | nan => exact matchesOperator_ok_of_compile_ok compile dv "$eq" _ (h _)
  | inf p => exact matchesOperator_ok_of_compile_ok compile dv "$eq" _ (h _)
  | str s => exact matchesOperator_ok_of_compile_ok compile dv "$eq" _ (h _)
  | arr i xs => exact matchesOperator_ok_of_compile_ok compile dv "$eq" _ (h _)

theorem matchesQuery_ok_of_regexFree (compile : RegexCompiler)
    (doc : Document) :
    ∀ query, queryRegexFree query = true →
      ∃ b, matchesQuery compile doc query = .ok b := by
  intro query
  induction query with
  | nil => intro _; exact ⟨true, rfl⟩
  | cons p rest ih =>
      intro h
      obtain ⟨k, qv⟩ := p
      simp only [queryRegexFree, List.all_cons, Bool.and_eq_true] at h
      obtain ⟨b, hb⟩ :=
        evalFieldCondition_ok_of_regexFree compile (getField doc k) qv h.1
      cases b with
      | true =>
          obtain ⟨c, hc⟩ := ih h.2
          exact ⟨c, by simp [matchesQuery, hb, hc]⟩
      | false => exact ⟨false, by simp [matchesQuery, hb, pure, Except.pure]⟩

theorem matchesQuery_ok_of_compile_ok (compile : RegexCompiler)
    (doc : Document) (h : ∀ w, compile w ≠ .error ()) :
    ∀ query, ∃ b, matchesQuery compile doc query = .ok b := by
  intro query
  induction query with
  | nil => exact ⟨true, rfl⟩
  | cons p rest ih =>
      obtain ⟨k, qv⟩ := p
      obtain ⟨b, hb⟩ :=
        evalFieldCondition_ok_of_compile_ok compile (getField doc k) qv h
      cases b with
      | true =>
          obtain ⟨c, hc⟩ := ih
          exact ⟨c, by simp [matchesQuery, hb, hc]⟩
      | false => exact ⟨false, by simp [matchesQuery, hb, pure, Except.pure]⟩

/-- Claim C5: for every sequence of documents and every filter,
`matchAll` (QueryBuilder `match` followed by `execute`) returns, in the
original relative order, exactly those documents for which
`matchesQuery` (the `matches` predicate) evaluates to true — stated for
every evaluation that completes without a raised pattern-compilation
error, which is the only way any of them can fail; in particular, with
an empty filter every document is returned. -/
theorem matchAll_matches_exactly :
    (∀ (compile : RegexCompiler) (docs : List Document)
        (query : List (String × Value)) (res : List Document),
        matchAll compile docs query = .ok res →
        res = docs.filter (fun d => okTrue (matchesQuery compile d query))) ∧
    (∀ (compile : RegexCompiler) (docs : List Document),
        matchAll compile docs [] = .ok docs) := by
  constructor
  · intro compile docs query res h
    cases query with
    | nil =>
        cases h
        simp [matchesQuery, okTrue, pure, Except.pure]
    | cons p rest => exact filterE_ok h
  · intro compile docs
    rfl

/-- Witness for C5 at a concrete input: two documents, a filter
selecting the first. -/
theorem matchAll_matches_exactly_witness :
    ([[("a", Value.num 1)]] : List Document) =
      ([[("a", Value.num 1)], [("a", Value.num 2)]] : List Document).filter
        (fun d => okTrue (matchesQuery noRegex d [("a", Value.num 1)])) :=
  matchAll_matches_exactly.1 noRegex
    [[("a", Value.num 1)], [("a", Value.num 2)]] [("a", Value.num 1)]
    [[("a", Value.num 1)]] rfl

/-- Claim C10: a filter field whose value is an empty operator object
is vacuously satisfied (the per-operator loop runs zero times), so
`matchAll docs [(f, {})]` returns every document. -/
theorem empty_operator_object_matches_all (compile : RegexCompiler)
    (docs : List Document) (f : String) (i : Nat) :
    matchAll compile docs [(f, Value.obj i .nil)] = .ok docs := by
  have h : ∀ d : Document,
      matchesQuery compile d [(f, Value.obj i .nil)] = .ok true :=
    fun d => rfl
  exact filterE_const_true h docs

/-- Claim C8: `_matchesOperator` with an operator name outside the
fixed set returns false, and consequently a `$bogus` filter returns the
empty sequence on any non-empty document set. -/
theorem unknown_operator_yields_false :
    (∀ (compile : RegexCompiler) (fv : Value) (op : String) (v : Value),
        op ∉ (["$eq", "$ne", "$gt", "$gte", "$lt", "$lte", "$in",
               "$regex"] : List String) →
        matchesOperator compile fv op v = .ok false) ∧
    (∀ (compile : RegexCompiler) (docs : List Document) (f : String)
        (v : Value) (i : Nat), docs ≠ [] →
        matchAll compile docs [(f, Value.obj i (.cons "$bogus" v .nil))] =
          .ok []) := by
  constructor
  · intro compile fv op v h
    unfold matchesOperator
    split
    all_goals simp_all [pure, Except.pure]
  · intro compile docs f v i _
    have h : ∀ d : Document,
        matchesQuery compile d
          [(f, Value.obj i (.cons "$bogus" v .nil))] = .ok false :=
      fun d => rfl
    exact filterE_const_false h docs

/-- Witness for C8 at concrete inputs: the `$where` operator name is
outside the fixed set and yields false, and a `$bogus` filter on a
one-document set yields the empty sequence. -/
theorem unknown_operator_yields_false_witness :
    matchesOperator noRegex (Value.num 3) "$where" (Value.num 3) =
        .ok false ∧
      matchAll noRegex [[("x", Value.num 1)]]
          [("x", Value.obj 0 (.cons "$bogus" (Value.num 1) .nil))] =
        .ok [] :=
  ⟨unknown_operator_yields_false.1 noRegex (Value.num 3) "$where"
      (Value.num 3) (by decide),
   unknown_operator_yields_false.2 noRegex [[("x", Value.num 1)]] "x"
      (Value.num 1) 0 (by decide)⟩

/-- Claim C6: a filter field with a non-operator-shaped literal value
(including arrays and null, anything but a non-array object) is
evaluated exactly as the explicit `{$eq: v}` operator object. -/
theorem implicit_eq_equivalence (compile : RegexCompiler)
    (docs : List Document) (f : String) (v : Value) (i : Nat)
    (h : v.isOperatorObject = false) :
    matchAll compile docs [(f, v)] =
      matchAll compile docs [(f, Value.obj i (.cons "$eq" v .nil))] := by
  have hp : ∀ d : Document,
      matchesQuery compile d [(f, v)] =
        matchesQuery compile d [(f, Value.obj i (.cons "$eq" v .nil))] := by
    intro d
    rw [matchesQuery_singleton, matchesQuery_singleton]
    have hlit : evalFieldCondition compile (getField d f) v =
        matchesOperator compile (getField d f) "$eq" v := by
      cases v
      case obj => exact absurd h (by simp [Value.isOperatorObject])
      all_goals rfl
    rw [hlit]
    show _ = evalOperators compile (getField d f) (.cons "$eq" v .nil)
    cases hm : matchesOperator compile (getField d f) "$eq" v with
    | error e => cases e; simp [evalOperators, hm]
    | ok b => cases b <;> simp [evalOperators, hm, pure, Except.pure]
  cases docs with
  | nil => rfl
  | cons d ds =>
      show filterE _ _ = filterE _ _
      exact congrArg (fun p => filterE p (d :: ds)) (funext hp)

/-- Witness for C6 at a concrete input: the literal filter
`{f: 5}` and the operator filter `{f: {$eq: 5}}` agree. -/
theorem implicit_eq_equivalence_witness :
    matchAll noRegex [[("f", Value.num 5)]] [("f", Value.num 5)] =
      matchAll noRegex [[("f", Value.num 5)]]
        [("f", Value.obj 0 (.cons "$eq" (Value.num 5) .nil))] :=
  implicit_eq_equivalence noRegex [[("f", Value.num 5)]] "f"
    (Value.num 5) 0 (by decide)

theorem jsNumLt_nan_left (m : JSNum) : jsNumLt .nan m = none := by
  cases m <;> rfl

theorem jsNumLt_nan_right (m : JSNum) : jsNumLt m .nan = none := by
  cases m <;> rfl

theorem jsLtRaw_num (a b : Int) :
    jsLtRaw (Value.num a) (Value.num b) = some (decide (a < b)) := by
  show jsNumLt (.fin a 0) (.fin b 0) = some (decide (a < b))
  simp [jsNumLt]

theorem jsLtRaw_eq_none_of_nan (x y : Value)
    (hstr : ¬((toPrimitive x).isStr = true ∧ (toPrimitive y).isStr = true))
    (hnan : primToNumber (toPrimitive x) = .nan ∨
      primToNumber (toPrimitive y) = .nan) :
    jsLtRaw x y = none := by
  unfold jsLtRaw
  rcases hnan with h | h <;>
    cases hx : toPrimitive x <;> cases hy : toPrimitive y <;>
      simp_all [Value.isStr, primToNumber, jsNumLt_nan_left,
        jsNumLt_nan_right]

theorem jsLtRaw_undef_left (v : Value) : jsLtRaw Value.missing v = none := by
  show jsNumLt JSNum.nan (primToNumber (toPrimitive v)) = none
  exact jsNumLt_nan_left _

theorem jsLtRaw_undef_right (v : Value) : jsLtRaw v Value.missing = none :=
  jsLtRaw_eq_none_of_nan v Value.missing
    (by simp [toPrimitive, Value.isStr]) (Or.inr rfl)

/-- Counterexample to C3: with field value NaN and operand `[NaN]`,
`$in` returns true (Array.prototype.includes uses SameValueZero, which
matches NaN with NaN), yet no element of the operand is strictly equal
to the field value — `NaN === NaN` is false — so `$in` is not
"true iff the operand contains a strictly equal element". -/
theorem in_nan_counterexample :
    matchesOperator noRegex Value.nan "$in"
        (Value.arr 0 (.cons Value.nan .nil)) = .ok true ∧
      jsStrictEq Value.nan Value.nan = false :=
  ⟨rfl, rfl⟩

/-- Claim C3 (amended): `$in` returns true iff the operand is an array
containing an element SameValueZero-equal to the field value — the same
as strictly equal except that NaN matches NaN — and returns false for
every non-array operand. -/
theorem in_operator_semantics :
    (∀ (compile : RegexCompiler) (fv v : Value),
        (matchesOperator compile fv "$in" v = .ok true ↔
          ∃ i xs, v = Value.arr i xs ∧
            ∃ x ∈ ValueList.toList xs, sameValueZero x fv = true)) ∧
    (∀ (compile : RegexCompiler) (fv v : Value), v.isArr = false →
        matchesOperator compile fv "$in" v = .ok false) ∧
    (∀ a b : Value, a ≠ Value.nan →
        sameValueZero a b = jsStrictEq a b) := by
  have hfalse : ∀ (compile : RegexCompiler) (fv v : Value),
      v.isArr = false → matchesOperator compile fv "$in" v = .ok false := by
    intro compile fv v h
    cases v
    case arr => simp [Value.isArr] at h
    all_goals rfl
  refine ⟨?_, hfalse, ?_⟩
  · intro compile fv v
    cases v with
    | arr i xs =>
        constructor
        · intro h
          refine ⟨i, xs, rfl, (arrayIncludes_iff xs fv).mp ?_⟩
          have h' : (Except.ok (arrayIncludes xs fv) : Except Unit Bool) =
              .ok true := h
          simpa using h'
        · rintro ⟨i', xs', heq, hx⟩
          cases heq
          show (Except.ok (arrayIncludes xs fv) : Except Unit Bool) = .ok true
          simpa using (arrayIncludes_iff xs fv).mpr hx
    | missing => rw [hfalse compile fv Value.missing rfl]; simp
    | null => rw [hfalse compile fv Value.null rfl]; simp
    | bool b => rw [hfalse compile fv (Value.bool b) rfl]; simp
    | num n => rw [hfalse compile fv (Value.num n) rfl]; simp
    | nan => rw [hfalse compile fv Value.nan rfl]; simp
    | inf p => rw [hfalse compile fv (Value.inf p) rfl]; simp
    | str s => rw [hfalse compile fv (Value.str s) rfl]; simp
    | obj i fs => rw [hfalse compile fv (Value.obj i fs) rfl]; simp
  · intro a b ha
    cases a
    case nan => exact absurd rfl ha
    all_goals rfl

/-- Witness for C3 at a concrete input: a non-array operand yields
false. -/
theorem in_operator_semantics_witness :
    matchesOperator noRegex (Value.num 7) "$in" (Value.num 7) = .ok false :=
  in_operator_semantics.2.1 noRegex (Value.num 7) (Value.num 7) (by decide)

/-- Claim C9: a document lacking field `f` fails `{f: {$eq: c}}` and
passes `{f: {$ne: c}}` for every concrete operand `c`, and each of the
four ordering operators applied to the missing value is false for every
operand. -/
theorem missing_field_asymmetry (compile : RegexCompiler) (doc : Document)
    (f : String) (c : Value) (i j : Nat)
    (hmiss : getField doc f = Value.missing) (hc : c ≠ Value.missing) :
    matchesQuery compile doc [(f, Value.obj i (.cons "$eq" c .nil))] =
        .ok false ∧
      matchesQuery compile doc [(f, Value.obj j (.cons "$ne" c .nil))] =
        .ok true ∧
      (∀ (op : String) (v : Value),
        op ∈ (["$gt", "$gte", "$lt", "$lte"] : List String) →
        matchesOperator compile Value.missing op v = .ok false) := by
  have hne : jsStrictEq Value.missing c = false := by
    cases c <;> simp_all [jsStrictEq]
  refine ⟨?_, ?_, ?_⟩
  · rw [matchesQuery_singleton, hmiss]
    show evalOperators compile Value.missing (.cons "$eq" c .nil) = .ok false
    have h1 : matchesOperator compile Value.missing "$eq" c =
        .ok (jsStrictEq Value.missing c) := rfl
    rw [hne] at h1
    simp [evalOperators, h1, pure, Except.pure]
  · rw [matchesQuery_singleton, hmiss]
    show evalOperators compile Value.missing (.cons "$ne" c .nil) = .ok true
    have h1 : matchesOperator compile Value.missing "$ne" c =
        .ok (!jsStrictEq Value.missing c) := rfl
    rw [hne] at h1
    simp [evalOperators, h1, pure, Except.pure]
  · intro op v hop
    have hl : jsLtRaw Value.missing v = none := jsLtRaw_undef_left v
    have hr : jsLtRaw v Value.missing = none := jsLtRaw_undef_right v
    simp only [List.mem_cons, List.not_mem_nil, or_false] at hop
    rcases hop with rfl | rfl | rfl | rfl
    · show (Except.ok (jsGt Value.missing v) : Except Unit Bool) = .ok false
      simp [jsGt, hr]
    · show (Except.ok (jsGe Value.missing v) : Except Unit Bool) = .ok false
      simp [jsGe, hl]
    · show (Except.ok (jsLt Value.missing v) : Except Unit Bool) = .ok false
      simp [jsLt, hl]
    · show (Except.ok (jsLe Value.missing v) : Except Unit Bool) = .ok false
      simp [jsLe, hr]

/-- Witness for C9 at a concrete input: a document without field `f`,
operand 5. -/
theorem missing_field_asymmetry_witness :
    matchesQuery noRegex [("g", Value.num 1)]
        [("f", Value.obj 0 (.cons "$eq" (Value.num 5) .nil))] =
      .ok false :=
  (missing_field_asymmetry noRegex [("g", Value.num 1)] "f"
    (Value.num 5) 0 0 rfl (by decide)).1

/-- The document `{tags: ['admin','user']}` of the spec's scenario; its
tags array is allocation 0. -/
def tagsDoc : Document :=
  [("tags", Value.arr 0
    (.cons (Value.str "admin") (.cons (Value.str "user") .nil)))]

/-- Counterexample to C2: the filter `{tags:['admin','user']}` written
as a fresh array literal (a separate allocation from the document's
array) matches nothing — `matchAll` returns the empty list — because
strict equality `===` on arrays is reference equality; the claim says
the document is returned. -/
theorem array_literal_filter_counterexample :
    matchAll noRegex [tagsDoc]
        [("tags", Value.arr 1
          (.cons (Value.str "admin") (.cons (Value.str "user") .nil)))] =
      .ok [] := rfl

/-- Claim C2 (amended): an array filter value is treated as whole-value
`$eq` equality, never as any-element membership — but whole-value
equality on arrays is reference identity, so a structurally equal,
separately allocated filter array matches nothing; the very same array
reference does match; and the scalar filter `{tags:'admin'}` does not
match the array-valued field. -/
theorem array_literal_filter_semantics :
    matchAll noRegex [tagsDoc]
        [("tags", Value.arr 1
          (.cons (Value.str "admin") (.cons (Value.str "user") .nil)))] =
      .ok [] ∧
    matchAll noRegex [tagsDoc]
        [("tags", Value.arr 0
          (.cons (Value.str "admin") (.cons (Value.str "user") .nil)))] =
      .ok [tagsDoc] ∧
    matchAll noRegex [tagsDoc] [("tags", Value.str "admin")] = .ok [] :=
  ⟨rfl, rfl, rfl⟩

/-- Claim C4: evaluation can raise in exactly one situation — `$regex`
applied to a string field value with a failing pattern compilation.
Stated as (i) an exact characterization of errors at the operator
level (in particular a non-string field value never raises even on a
malformed pattern, and neither do unknown operators or comparisons),
(ii) queries mentioning no `$regex` operator never raise, in `matches`
or in `matchAll`, and (iii) when pattern compilation never fails,
nothing raises. -/
theorem regex_only_raises :
    (∀ (compile : RegexCompiler) (fv : Value) (op : String) (v : Value),
        (matchesOperator compile fv op v = .error () ↔
          op = "$regex" ∧ fv.isStr = true ∧ compile v = .error ())) ∧
    (∀ (compile : RegexCompiler) (doc : Document)
        (query : List (String × Value)), queryRegexFree query = true →
        ∃ b, matchesQuery compile doc query = .ok b) ∧
    (∀ (compile : RegexCompiler) (docs : List Document)
        (query : List (String × Value)), queryRegexFree query = true →
        ∃ res, matchAll compile docs query = .ok res) ∧
    (∀ compile : RegexCompiler, (∀ w, compile w ≠ .error ()) →
        (∀ (doc : Document) (query : List (String × Value)),
          ∃ b, matchesQuery compile doc query = .ok b) ∧
        (∀ (docs : List Document) (query : List (String × Value)),
          ∃ res, matchAll compile docs query = .ok res)) := by
  refine ⟨matchesOperator_error_iff, ?_, ?_, ?_⟩
  · exact fun compile doc query h =>
      matchesQuery_ok_of_regexFree compile doc query h
  · intro compile docs query h
    cases query with
    | nil => exact ⟨docs, rfl⟩
    | cons p rest =>
        show ∃ res,
          filterE (fun d => matchesQuery compile d (p :: rest)) docs =
            .ok res
        exact filterE_ok_of_elems
          (fun d _ => matchesQuery_ok_of_regexFree compile d _ h)
  · intro compile h
    refine ⟨fun doc query =>
      matchesQuery_ok_of_compile_ok compile doc h query, ?_⟩
    intro docs query
    cases query with
    | nil => exact ⟨docs, rfl⟩
    | cons p rest =>
        show ∃ res,
          filterE (fun d => matchesQuery compile d (p :: rest)) docs =
            .ok res
        exact filterE_ok_of_elems
          (fun d _ => matchesQuery_ok_of_compile_ok compile d h _)

/-- Witness for C4 at a concrete input: a regex-free query evaluates
without raising even under a compiler that rejects every pattern. -/
theorem regex_only_raises_witness :
    ∃ b, matchesQuery noRegex [("f", Value.num 1)] [("f", Value.num 1)] =
      .ok b :=
  regex_only_raises.2.1 noRegex [("f", Value.num 1)] [("f", Value.num 1)]
    (by decide)

/-- Claim C7: for two per-field conditions on distinct fields,
`matchAll docs {a: X, b: Y}` equals the intersection — taken in the
first result's (and hence the original) relative order — of
`matchAll docs {a: X}` and `matchAll docs {b: Y}`. -/
theorem two_field_conjunction (compile : RegexCompiler)
    (docs : List Document) (a b : String) (x y : Value)
    (r r1 r2 : List Document) (_hab : a ≠ b)
    (h : matchAll compile docs [(a, x), (b, y)] = .ok r)
    (h1 : matchAll compile docs [(a, x)] = .ok r1)
    (h2 : matchAll compile docs [(b, y)] = .ok r2) :
    r = r1.filter (fun d => decide (d ∈ r2)) := by
  have hfr : filterE (fun d => matchesQuery compile d [(a, x), (b, y)])
      docs = .ok r := h
  have hfr1 : filterE (fun d => matchesQuery compile d [(a, x)]) docs =
      .ok r1 := h1
  have hfr2 : filterE (fun d => matchesQuery compile d [(b, y)]) docs =
      .ok r2 := h2
  have hA := filterE_elems_ok hfr1
  have hB := filterE_elems_ok hfr2
  have hr := filterE_ok hfr
  have hr1 := filterE_ok hfr1
  have hr2 := filterE_ok hfr2
  subst hr hr1 hr2
  have hpoint : ∀ d ∈ docs,
      okTrue (matchesQuery compile d [(a, x), (b, y)]) =
        (okTrue (matchesQuery compile d [(a, x)]) &&
          okTrue (matchesQuery compile d [(b, y)])) := by
    intro d hd
    obtain ⟨u, hu⟩ := hA d hd
    obtain ⟨v, hv⟩ := hB d hd
    rw [matchesQuery_pair compile d a b x y u v hu hv, hu, hv]
    cases u <;> cases v <;> rfl
  rw [List.filter_filter]
  refine (List.filter_congr hpoint).trans (List.filter_congr ?_).symm
  intro d hd
  have hd2 : (decide (d ∈ List.filter
      (fun d => okTrue (matchesQuery compile d [(b, y)])) docs)) =
      okTrue (matchesQuery compile d [(b, y)]) := by
    by_cases hmem : d ∈ List.filter
        (fun d => okTrue (matchesQuery compile d [(b, y)])) docs
    · simp [hmem, (List.mem_filter.mp hmem).2]
    · have : ¬ okTrue (matchesQuery compile d [(b, y)]) = true := by
        intro hb
        exact hmem (List.mem_filter.mpr ⟨hd, hb⟩)
      simp [hmem, Bool.eq_false_iff.mpr this]
  rw [hd2, Bool.and_comm]

/-- Witness for C7 at a concrete input: three documents, the two-field
filter `{a: 1, b: 2}` against the single-field results. -/
theorem two_field_conjunction_witness :
    ([[("a", Value.num 1), ("b", Value.num 2)]] : List Document) =
      ([[("a", Value.num 1), ("b", Value.num 2)],
        [("a", Value.num 1), ("b", Value.num 3)]] : List Document).filter
        (fun d => decide (d ∈
          ([[("a", Value.num 1), ("b", Value.num 2)],
            [("a", Value.num 2), ("b", Value.num 2)]] : List Document))) :=
  two_field_conjunction noRegex
    [[("a", Value.num 1), ("b", Value.num 2)],
     [("a", Value.num 1), ("b", Value.num 3)],
     [("a", Value.num 2), ("b", Value.num 2)]]
    "a" "b" (Value.num 1) (Value.num 2)
    [[("a", Value.num 1), ("b", Value.num 2)]]
    [[("a", Value.num 1), ("b", Value.num 2)],
     [("a", Value.num 1), ("b", Value.num 3)]]
    [[("a", Value.num 1), ("b", Value.num 2)],
     [("a", Value.num 2), ("b", Value.num 2)]]
    (by decide) rfl rfl rfl

/-- Counterexample to C1: the string "10" and the number 5 are of
incompatible types, yet `$gt` returns true (the host coerces the
numeric string), not false as the claim states. -/
theorem ordering_mixed_types_counterexample :
    matchesOperator noRegex (Value.str "10") "$gt" (Value.num 5) =
      .ok true := rfl

/-- Claim C1 (amended): the four ordering operators never raise; when
both values are (finite) numbers the comparison is numeric, and when
both are strings it is lexicographic by UTF-16 code units; for mixed
types the host's coercing relational semantics applies, and the
comparison is false whenever the two converted primitives are not both
strings and either converts to NaN (for instance a boolean against a
non-numeric string) — but a numeric string against a number compares
numerically rather than yielding false. -/
theorem ordering_operator_semantics :
    (∀ (compile : RegexCompiler) (x y : Value) (op : String),
        op ∈ (["$gt", "$gte", "$lt", "$lte"] : List String) →
        ∃ b, matchesOperator compile x op y = .ok b) ∧
    (∀ (compile : RegexCompiler) (a c : Int),
        matchesOperator compile (Value.num a) "$gt" (Value.num c) =
          .ok (decide (c < a)) ∧
        matchesOperator compile (Value.num a) "$gte" (Value.num c) =
          .ok (!decide (a < c)) ∧
        matchesOperator compile (Value.num a) "$lt" (Value.num c) =
          .ok (decide (a < c)) ∧
        matchesOperator compile (Value.num a) "$lte" (Value.num c) =
          .ok (!decide (c < a))) ∧
    (∀ (compile : RegexCompiler) (s t : String),
        matchesOperator compile (Value.str s) "$gt" (Value.str t) =
          .ok (utf16Lt t s) ∧
        matchesOperator compile (Value.str s) "$gte" (Value.str t) =
          .ok (!utf16Lt s t) ∧
        matchesOperator compile (Value.str s) "$lt" (Value.str t) =
          .ok (utf16Lt s t) ∧
        matchesOperator compile (Value.str s) "$lte" (Value.str t) =
          .ok (!utf16Lt t s)) ∧
    (∀ (compile : RegexCompiler) (x y : Value) (op : String),
        op ∈ (["$gt", "$gte", "$lt", "$lte"] : List String) →
        ¬((toPrimitive x).isStr = true ∧ (toPrimitive y).isStr = true) →
        (primToNumber (toPrimitive x) = .nan ∨
          primToNumber (toPrimitive y) = .nan) →
        matchesOperator compile x op y = .ok false) := by
  refine ⟨?_, ?_, ?_, ?_⟩
  · intro compile x y op hop
    simp only [List.mem_cons, List.not_mem_nil, or_false] at hop
    rcases hop with rfl | rfl | rfl | rfl
    · exact ⟨jsGt x y, rfl⟩
    · exact ⟨jsGe x y, rfl⟩
    · exact ⟨jsLt x y, rfl⟩
    · exact ⟨jsLe x y, rfl⟩
  · intro compile a c
    refine ⟨?_, ?_, ?_, ?_⟩
    · show (Except.ok (jsGt (Value.num a) (Value.num c)) : Except Unit Bool) =
        .ok (decide (c < a))
      simp [jsGt, jsLtRaw_num]
    · show (Except.ok (jsGe (Value.num a) (Value.num c)) : Except Unit Bool) =
        .ok (!decide (a < c))
      simp [jsGe, jsLtRaw_num]
    · show (Except.ok (jsLt (Value.num a) (Value.num c)) : Except Unit Bool) =
        .ok (decide (a < c))
      simp [jsLt, jsLtRaw_num]
    · show (Except.ok (jsLe (Value.num a) (Value.num c)) : Except Unit Bool) =
        .ok (!decide (c < a))
      simp [jsLe, jsLtRaw_num]
  · exact fun compile s t => ⟨rfl, rfl, rfl, rfl⟩
  · intro compile x y op hop hstr hnan
    have hxy : jsLtRaw x y = none := jsLtRaw_eq_none_of_nan x y hstr hnan
    have hyx : jsLtRaw y x = none :=
      jsLtRaw_eq_none_of_nan y x
        (fun hc => hstr ⟨hc.2, hc.1⟩) hnan.symm
    simp only [List.mem_cons, List.not_mem_nil, or_false] at hop
    rcases hop with rfl | rfl | rfl | rfl
    · show (Except.ok (jsGt x y) : Except Unit Bool) = .ok false
      simp [jsGt, hyx]
    · show (Except.ok (jsGe x y) : Except Unit Bool) = .ok false
      simp [jsGe, hxy]
    · show (Except.ok (jsLt x y) : Except Unit Bool) = .ok false
      simp [jsLt, hxy]
    · show (Except.ok (jsLe x y) : Except Unit Bool) = .ok false
      simp [jsLe, hyx]

/-- Witness for C1 at a concrete input: a boolean compared with a
non-numeric string yields false under `$lt`. -/
theorem ordering_operator_semantics_witness :
    matchesOperator noRegex (Value.bool true) "$lt" (Value.str "abc") =
      .ok false :=
  ordering_operator_semantics.2.2.2 noRegex (Value.bool true)
    (Value.str "abc") "$lt" (by decide) (by decide) (Or.inr rfl)
